import Mathlib

/-!
Verification development for the stacked-series composition engine of
`src/base/stack-mixin.js` (class `StackedDataAdaptor` and mixin `StackMixin`).

Shallow embedding conventions:
* JS numbers that the engine treats arithmetically (keys, values, paddings)
  are embedded as `Int`.
* A crossfilter group handle is embedded as the row list its `all()` returns
  (the spec's external "data source" interface exposes only `all()`).
* JS plain objects used as string-keyed maps (`_hiddenStacks`, `_titles`,
  the per-row column objects fed to d3.stack) are embedded as association
  lists with insertion-order preserving update (`jsSet`) and first-match
  lookup (`jsGet`); keys stay unique because `jsSet` overwrites in place.
* Fallible evaluation (a JS `TypeError` thrown while indexing a missing
  point during the composition pass) is embedded with `Option`: `none`
  means the pass aborted with an exception.
* `undefined` numeric fields (`y0`/`y1` before the write-back) are
  `Option Int` with `none` for `undefined`.
-/

/-- JS-object helper: first-match lookup on a string-keyed association list. -/
def jsGet {β : Type} : List (String × β) → String → Option β
  | [], _ => none
  | (k, v) :: rest, n => if k = n then some v else jsGet rest n

/-- JS-object helper: property assignment; overwrites in place, appends new
keys at the end (JS insertion-order semantics). -/
def jsSet {β : Type} : List (String × β) → String → β → List (String × β)
  | [], n, v => [(n, v)]
  | (k, w) :: rest, n, v =>
      if k = n then (n, v) :: rest else (k, w) :: jsSet rest n v

section Model

variable {Row : Type}

/-- A registry entry of `StackedDataAdaptor._stack`:
`{group, name, accessor?}` pushed by `StackedDataAdaptor.stack`. -/
structure SLayer (Row : Type) where
  group : List Row
  name : String
  accessor : Option (Row → Nat → Int)

/-- An element of `StackedDataAdaptor.data()`'s result:
`{name, accessor, rawData}` where `rawData` is the (cloned) `group.all()`. -/
structure DLayer (Row : Type) where
  name : String
  accessor : Option (Row → Nat → Int)
  rawData : List Row

/-- `StackedDataAdaptor.data()`: maps each registry layer to
`{name, accessor, rawData: layer.group.all()}` (the defensive clone is
identity in a pure embedding). -/
def StackedDataAdaptor.data (stk : List (SLayer Row)) : List (DLayer Row) :=
  stk.map (fun l => ⟨l.name, l.accessor, l.group⟩)

/-- One of the three argument shapes a JS parameter of
`StackedDataAdaptor.stack` can take: `undefined`, a string, or a function. -/
inductive JSArg (Row : Type) where
  | undef
  | str (s : String)
  | fn (f : Row → Nat → Int)

/-- `StackedDataAdaptor.stack(group, name, accessor)` in its setter form
(`arguments.length ≥ 1`); `nargs` embeds JS `arguments.length`.
If at most two arguments were passed, `accessor = name`; the layer name is
`name` when it is a string, else `String(this._stack.length)` (pre-append
length); the accessor is stored only when it is a function; the layer is
pushed at the end. -/
def StackedDataAdaptor.stack (stk : List (SLayer Row)) (group : List Row)
    (name accessor : JSArg Row) (nargs : Nat) : List (SLayer Row) :=
  let accessor := if nargs ≤ 2 then name else accessor
  let nm := match name with
    | .str s => s
    | _ => toString stk.length
  let acc : Option (Row → Nat → Int) := match accessor with
    | .fn f => some f
    | _ => none
  stk ++ [⟨group, nm, acc⟩]

/-- A point produced by `StackMixin._prepareValues`:
`{x, y, data, name}`, later mutated with `y0`/`y1` by the composition
write-back (`none` = still `undefined`). -/
structure SPoint (Row : Type) where
  x : Int
  y : Int
  data : Row
  name : String
  y0 : Option Int := none
  y1 : Option Int := none

/-- A layer after `_prepareValues`: the `data()` fields plus the two point
lists `domainValues` (filtered) and `values` (filtered or not, per the
evade-domain-filter flag). -/
structure PLayer (Row : Type) where
  name : String
  accessor : Option (Row → Nat → Int)
  rawData : List Row
  domainValues : List (SPoint Row)
  values : List (SPoint Row)

/-- Modelled from the spec: the chart-wide collaborators the mixin reads
through `CoordinateGridMixin`/`BaseMixin` getters, which are outside the
provided sources. §6 of the spec fixes their interfaces: a shared key
function and shared value function (`keyAccessor()`, `valueAccessor()`),
a domain provider (`x()` present or not, its `[min, max]` domain, the
`isOrdinal()` and `elasticX()` booleans), the `evadeDomainFilter()` flag and
the `xAxisPadding()`/`yAxisPadding()` amounts (embedded as plain `Int`
offsets). -/
structure ChartCfg (Row : Type) where
  keyAccessor : Row → Nat → Int
  valueAccessor : Row → Nat → Int
  hasX : Bool
  xDomainMin : Int
  xDomainMax : Int
  isOrdinal : Bool
  elasticX : Bool
  evadeDomainFilter : Bool
  yAxisPadding : Int
  xAxisPadding : Int

/-- `StackMixin._domainFilter()` applied to a point: constantly true when
there is no `x` scale; pass-through for ordinal domains (TODO #416 in the
source) and for elastic `x`; otherwise the inclusive range test
`p.x >= xDomain[0] && p.x <= xDomain[xDomain.length - 1]`. -/
def domainFilterPass (cfg : ChartCfg Row) (p : SPoint Row) : Bool :=
  if !cfg.hasX then true
  else if cfg.isOrdinal then true
  else if cfg.elasticX then true
  else decide (cfg.xDomainMin ≤ p.x) && decide (p.x ≤ cfg.xDomainMax)

/-- Index-aware map, the embedding of JS `list.map((v, i) => ...)` with an
explicit starting index. -/
def jsMapIdx {α β : Type} (f : Nat → α → β) : Nat → List α → List β
  | _, [] => []
  | i, a :: as => f i a :: jsMapIdx f (i + 1) as

/-- The `allValues` list built inside `StackMixin._prepareValues`: each raw
row `d` at position `i` becomes
`{x: keyAccessor(d, i), y: (layer.accessor || valueAccessor)(d, i), data: d,
name: layer.name}`. -/
def allValuesOf (cfg : ChartCfg Row) (l : DLayer Row) : List (SPoint Row) :=
  jsMapIdx (fun i d =>
    { x := cfg.keyAccessor d i
      y := (l.accessor.getD cfg.valueAccessor) d i
      data := d
      name := l.name }) 0 l.rawData

/-- `StackMixin._prepareValues`: `domainValues` is `allValues` filtered by
the domain filter; `values` is `allValues` when the evade flag is set, else
`domainValues`. -/
def prepareValues (cfg : ChartCfg Row) (l : DLayer Row) : PLayer Row :=
  let allValues := allValuesOf cfg l
  let domainValues := allValues.filter (domainFilterPass cfg)
  { name := l.name
    accessor := l.accessor
    rawData := l.rawData
    domainValues := domainValues
    values := if cfg.evadeDomainFilter then allValues else domainValues }

/-- `this._hiddenStacks[name]` coerced to a boolean: absent keys and `false`
entries are visible. -/
def isStackHidden (hs : List (String × Bool)) (n : String) : Bool :=
  (jsGet hs n).getD false

/-- `StackMixin._visibility(l)`, which reads only `l.name`:
`!this._hiddenStacks[l.name]`. -/
def StackMixin.visibility (hs : List (String × Bool)) (name : String) : Bool :=
  !(isStackHidden hs name)

/-- `StackMixin.hideStack(stackName)`: sets the hidden flag to `true`. -/
def StackMixin.hideStack (hs : List (String × Bool)) (n : String) :
    List (String × Bool) :=
  jsSet hs n true

/-- `StackMixin.showStack(stackName)`: sets the hidden flag to `false`
(it does not delete the key). -/
def StackMixin.showStack (hs : List (String × Bool)) (n : String) :
    List (String × Bool) :=
  jsSet hs n false

/-- The `y` of `layer.values[i]`, with `0` standing in for the never-read
missing case (only consulted after the pass has checked the index). -/
def yAt (l : PLayer Row) (i : Nat) : Int :=
  ((l.values.get? i).map SPoint.y).getD 0

/-- Pure accumulator pass of the per-row column object of `v4data`:
`layers.forEach(layer => col[layer.name] = layer.values[i].y)`.
Later layers overwrite the entry of an earlier layer with the same name,
exactly as JS property assignment does. (The initial `{x: v.x}` binding of
the source is omitted: `x` can only be read back through a stack key, i.e. a
layer name, and a layer named `"x"` overwrites it first.) -/
def colOfAux (i : Nat) : List (PLayer Row) → List (String × Int) →
    List (String × Int)
  | [], acc => acc
  | l :: ls, acc => colOfAux i ls (jsSet acc l.name (yAt l i))

/-- The column object for row `i`, built over all visible layers. -/
def colOf (layers : List (PLayer Row)) (i : Nat) : List (String × Int) :=
  colOfAux i layers []

/-- Fallible construction of row `i`'s column object: reading
`layer.values[i].y` on a layer with fewer than `i + 1` points throws in JS
(`undefined.y`), embedded as `none`. -/
def buildColAux (i : Nat) : List (PLayer Row) → List (String × Int) →
    Option (List (String × Int))
  | [], acc => some acc
  | l :: ls, acc =>
      match l.values.get? i with
      | none => none
      | some p => buildColAux i ls (jsSet acc l.name p.y)

/-- Fallible column object for row `i` over all visible layers. -/
def buildCol (layers : List (PLayer Row)) (i : Nat) :
    Option (List (String × Int)) :=
  buildColAux i layers []

/-- `[f i, f (i+1), ..., f (i+n-1)]`. -/
def tabulateFrom {β : Type} (g : Nat → β) (i : Nat) : Nat → List β
  | 0 => []
  | n + 1 => g i :: tabulateFrom g (i + 1) n

/-- Fallible tabulation: `some [f i, ..., f (i+n-1)]` when every call
succeeds, `none` as soon as one row construction throws. -/
def optTabulateFrom {β : Type} (f : Nat → Option β) (i : Nat) :
    Nat → Option (List β)
  | 0 => some []
  | n + 1 =>
      match f i, optTabulateFrom f (i + 1) n with
      | some b, some bs => some (b :: bs)
      | _, _ => none

/-- `f 0 + f 1 + ... + f (n-1)`. -/
def sumFirst (f : Nat → Int) : Nat → Int
  | 0 => 0
  | n + 1 => sumFirst f n + f n

/-- The value of column `k` in a row object; every stack key is a layer
name and every layer name is written into the column object, so the
default is never consulted. -/
def colVal (col : List (String × Int)) (k : String) : Int :=
  (jsGet col k).getD 0

/-- The lower bound `series[si][j][0]` of d3.stack with the default order
and offset: the sum of the row's values of all (stack-)preceding keys. -/
def stackY0 (keys : List String) (col : List (String × Int)) (si : Nat) :
    Int :=
  sumFirst (fun t => colVal col (keys.getD t "")) si

/-- The upper bound `series[si][j][1]` of d3.stack with the default order
and offset: the lower bound plus the row's value of the series' own key. -/
def stackY1 (keys : List String) (col : List (String × Int)) (si : Nat) :
    Int :=
  stackY0 keys col si + colVal col (keys.getD si "")

/-- The write-back loop of the data callback for the layer at stack index
`si`: `layers[si].values[j].y0 = series[j][0]; ... .y1 = series[j][1]` for
every row index `j` of the pass (`cols` has one column object per row of
`layers[0].values`); points beyond the row count keep `undefined`.
`domainValues` holds the same (now mutated) point objects, i.e. the mutated
`values` filtered by the domain filter (the filter depends only on the
untouched `x`). -/
def writeback (cfg : ChartCfg Row) (keys : List String)
    (cols : List (List (String × Int))) (si : Nat) (l : PLayer Row) :
    PLayer Row :=
  let newValues := jsMapIdx (fun j p =>
    match cols.get? j with
    | some col =>
        { p with
          y0 := some (stackY0 keys col si)
          y1 := some (stackY1 keys col si) }
    | none => p) 0 l.values
  { l with
    values := newValues
    domainValues := newValues.filter (domainFilterPass cfg) }

/-- The data callback installed by the `StackMixin` constructor — the
composition entry point. Visible layers are prepared, the canonical row
count is taken from the first visible layer's `values`, one column object
is built per row (this is where a later layer shorter than the first makes
the pass throw, embedded as `none`), the d3 stack is computed per layer
index, and `y0`/`y1` are written back. An empty visible set short-circuits
to `[]`. -/
def StackMixin.dataFn (cfg : ChartCfg Row) (hs : List (String × Bool))
    (reg : List (SLayer Row)) : Option (List (PLayer Row)) :=
  match (StackedDataAdaptor.data reg).filter
      (fun l => StackMixin.visibility hs l.name) with
  | [] => some []
  | l0 :: ls =>
      let prepared := (l0 :: ls).map (prepareValues cfg)
      let keys := prepared.map PLayer.name
      let n := (prepareValues cfg l0).values.length
      (optTabulateFrom (buildCol prepared) 0 n).map (fun cols =>
        jsMapIdx (writeback cfg keys cols) 0 prepared)

/-- d3-array `min` with an accessor that may yield `undefined`/`NaN`
(embedded as `none`): such entries are skipped; the minimum of the numeric
entries is returned, `undefined` (`none`) when there are none. -/
def d3min : List (Option Int) → Option Int
  | [] => none
  | none :: rest => d3min rest
  | some v :: rest =>
      match d3min rest with
      | none => some v
      | some w => some (min v w)

/-- d3-array `max`, same conventions as `d3min`. -/
def d3max : List (Option Int) → Option Int
  | [] => none
  | none :: rest => d3max rest
  | some v :: rest =>
      match d3max rest with
      | none => some v
      | some w => some (max v w)

/-- Modelled from the spec: `utils.subtract(m, padding)` from the repo's
`src/core/utils.js`, which is not among the provided sources; §4.4 fixes it
to plain subtraction of the padding amount, with an `undefined` input
propagating to a non-numeric (`NaN`) result, embedded as `none`. -/
def utilsSubtract (m : Option Int) (pad : Int) : Option Int :=
  m.map (fun v => v - pad)

/-- Modelled from the spec: `utils.add(m, padding)`, plain addition with
`undefined`/`NaN` propagation; see `utilsSubtract`. -/
def utilsAdd (m : Option Int) (pad : Int) : Option Int :=
  m.map (fun v => v + pad)

/-- `StackMixin._flattenStack()`: the concatenation of `domainValues` over
the layers returned by the data callback (`none` when the callback threw). -/
def StackMixin.flattenStack (cfg : ChartCfg Row) (hs : List (String × Bool))
    (reg : List (SLayer Row)) : Option (List (SPoint Row)) :=
  (StackMixin.dataFn cfg hs reg).map (fun layers =>
    (layers.map PLayer.domainValues).flatten)

/-- The accessor of `yAxisMin`: `(p.y < 0) ? (p.y + p.y0) : p.y0`; with
`p.y0` still `undefined` the result is non-numeric and skipped by d3 `min`. -/
def yMinAccessor (p : SPoint Row) : Option Int :=
  p.y0.map (fun b => if p.y < 0 then p.y + b else b)

/-- The accessor of `yAxisMax`: `(p.y > 0) ? (p.y + p.y0) : p.y0`. -/
def yMaxAccessor (p : SPoint Row) : Option Int :=
  p.y0.map (fun b => if p.y > 0 then p.y + b else b)

/-- `StackMixin.yAxisMin()`: outer `none` = the composition pass threw;
inner `none` = non-numeric (`undefined`/`NaN`) extent. -/
def StackMixin.yAxisMin (cfg : ChartCfg Row) (hs : List (String × Bool))
    (reg : List (SLayer Row)) : Option (Option Int) :=
  (StackMixin.flattenStack cfg hs reg).map (fun pts =>
    utilsSubtract (d3min (pts.map yMinAccessor)) cfg.yAxisPadding)

/-- `StackMixin.yAxisMax()`. -/
def StackMixin.yAxisMax (cfg : ChartCfg Row) (hs : List (String × Bool))
    (reg : List (SLayer Row)) : Option (Option Int) :=
  (StackMixin.flattenStack cfg hs reg).map (fun pts =>
    utilsAdd (d3max (pts.map yMaxAccessor)) cfg.yAxisPadding)

/-- `StackMixin.xAxisMin()`: d3 `min` over `pluck('x')` minus the x
padding. -/
def StackMixin.xAxisMin (cfg : ChartCfg Row) (hs : List (String × Bool))
    (reg : List (SLayer Row)) : Option (Option Int) :=
  (StackMixin.flattenStack cfg hs reg).map (fun pts =>
    utilsSubtract (d3min (pts.map (fun p => some p.x))) cfg.xAxisPadding)

/-- `StackMixin.xAxisMax()`. -/
def StackMixin.xAxisMax (cfg : ChartCfg Row) (hs : List (String × Bool))
    (reg : List (SLayer Row)) : Option (Option Int) :=
  (StackMixin.flattenStack cfg hs reg).map (fun pts =>
    utilsAdd (d3max (pts.map (fun p => some p.x))) cfg.xAxisPadding)

/-- A `legendables()` record `{name, hidden, color}` (the self-referential
`chart: this` field carries no data and is dropped from the embedding). -/
structure LegendEntry (C : Type) where
  name : String
  hidden : Bool
  color : C

/-- `StackMixin.legendables()`: one entry per registered layer (hidden or
not) in registry order, with `hidden: !this._visibility(layer)` and
`color: this.getColor(layer, i)`; `getColor` is the external color provider
of spec §6, passed in as `getColor`. -/
def StackMixin.legendables {C : Type} (hs : List (String × Bool))
    (getColor : SLayer Row → Nat → C) (reg : List (SLayer Row)) :
    List (LegendEntry C) :=
  jsMapIdx (fun i layer =>
    { name := layer.name
      hidden := !(StackMixin.visibility hs layer.name)
      color := getColor layer i }) 0 reg

/-- The title-relevant mutable state of the chart. `chartTitle` and
`groupName` are modelled from the spec: they live on the `BaseMixin`
(outside the provided sources), which stores a single chart-wide title
function (`super.title()` getter/setter) and the name passed to the last
`group()` call. -/
structure TitleState (TF : Type) where
  titles : List (String × TF)
  chartTitle : TF
  groupName : String

/-- A JS argument to `StackMixin.title`: `undefined`, a string, or a title
function. -/
inductive TitleArg (TF : Type) where
  | undef
  | str (s : String)
  | fn (f : TF)

/-- `StackMixin.title(stackName, titleAccessor)`: `.inl` is a returned
title function (getter paths), `.inr` the updated state (setter paths).
Branches in source order: falsy `stackName` (absent or the empty string)
returns the chart-wide title; a function `stackName` sets the chart-wide
title; a `stackName` equal to the group name with a function accessor sets
the chart-wide title; a non-function accessor reads
`this._titles[stackName] || super.title()`; otherwise the per-layer
override is stored. -/
def StackMixin.title {TF : Type} (st : TitleState TF)
    (stackName titleAccessor : TitleArg TF) : TF ⊕ TitleState TF :=
  match stackName with
  | .undef => .inl st.chartTitle
  | .fn f => .inr { st with chartTitle := f }
  | .str s =>
      if s = "" then .inl st.chartTitle
      else
        match titleAccessor with
        | .fn f =>
            if s = st.groupName then .inr { st with chartTitle := f }
            else .inr { st with titles := jsSet st.titles s f }
        | _ => .inl ((jsGet st.titles s).getD st.chartTitle)

/-- The full mutable state touched by `StackMixin.group`. `valueAccessorF`,
`chartTitle`, `groupName` and `baseGroup` are modelled from the spec: they
are `BaseMixin` storage (shared value accessor, chart-wide title, group
name, group handle) outside the provided sources. -/
structure ChartState (Row TF : Type) where
  registry : List (SLayer Row)
  titles : List (String × TF)
  hiddenStacks : List (String × Bool)
  valueAccessorF : Row → Nat → Int
  chartTitle : TF
  groupName : Option String
  baseGroup : List Row

/-- `StackMixin.group(g, n, f)` in its setter form: clears the adaptor
stack and the per-layer titles, re-stacks `g` under `n` (via
`StackMixin.stack`, which always forwards three arguments to the adaptor,
the third `undefined`), installs `f` as the shared value accessor when
truthy, and finally calls `super.group(g, n)` (modelled from the spec:
stores the group handle and its name). The hidden-stack set is not
touched. -/
def StackMixin.group {TF : Type} (st : ChartState Row TF) (g : List Row)
    (n : Option String) (f : Option (Row → Nat → Int)) : ChartState Row TF :=
  let st1 : ChartState Row TF := { st with registry := [], titles := [] }
  let st2 : ChartState Row TF :=
    { st1 with
      registry := StackedDataAdaptor.stack st1.registry g
        (match n with | some s => JSArg.str s | none => JSArg.undef)
        JSArg.undef 3 }
  let st3 : ChartState Row TF :=
    match f with
    | some f' => { st2 with valueAccessorF := f' }
    | none => st2
  { st3 with baseGroup := g, groupName := n }

/-- The plain minimum of an integer list (`none` on the empty list); the
reference form the extent claims are stated against. -/
def minOfList : List Int → Option Int
  | [] => none
  | a :: rest =>
      match minOfList rest with
      | none => some a
      | some b => some (min a b)

/-- The plain maximum of an integer list (`none` on the empty list). -/
def maxOfList : List Int → Option Int
  | [] => none
  | a :: rest =>
      match maxOfList rest with
      | none => some a
      | some b => some (max a b)

/-- The `y` value of the point at index `k` of the output layer at stack
index `j` (`0` when out of range); used to phrase the cumulative sums. -/
def layerY (out : List (PLayer Row)) (j k : Nat) : Int :=
  (((out.get? j).bind (fun l => l.values.get? k)).map SPoint.y).getD 0

end Model

section Lemmas

variable {Row : Type}

theorem jsGet_jsSet_self {β : Type} (a : List (String × β)) (n : String)
    (v : β) : jsGet (jsSet a n v) n = some v := by
  induction a with
  | nil => simp [jsSet, jsGet]
  | cons hd tl ih =>
      obtain ⟨k, w⟩ := hd
      by_cases hk : k = n
      · simp [jsSet, hk, jsGet]
      · simp [jsSet, hk, jsGet, ih]

theorem jsGet_jsSet_ne {β : Type} (a : List (String × β)) (n m : String)
    (v : β) (hne : m ≠ n) : jsGet (jsSet a n v) m = jsGet a m := by
  induction a with
  | nil => simp [jsSet, jsGet, Ne.symm hne]
  | cons hd tl ih =>
      obtain ⟨k, w⟩ := hd
      by_cases hk : k = n
      · subst hk
        simp [jsSet, jsGet, Ne.symm hne]
      · simp [jsSet, hk, jsGet, ih]

theorem jsSet_jsSet {β : Type} (a : List (String × β)) (n : String)
    (v w : β) : jsSet (jsSet a n v) n w = jsSet a n w := by
  induction a with
  | nil => simp [jsSet]
  | cons hd tl ih =>
      obtain ⟨k, u⟩ := hd
      by_cases hk : k = n
      · simp [jsSet, hk]
      · simp [jsSet, hk, ih]

theorem isStackHidden_jsSet (hs : List (String × Bool)) (n m : String)
    (b : Bool) :
    isStackHidden (jsSet hs n b) m = if m = n then b else isStackHidden hs m := by
  by_cases h : m = n
  · subst h
    simp [isStackHidden, jsGet_jsSet_self]
  · simp [isStackHidden, jsGet_jsSet_ne hs n m b h, h]

theorem jsMapIdx_length {α β : Type} (f : Nat → α → β) :
    ∀ (i : Nat) (l : List α), (jsMapIdx f i l).length = l.length
  | _, [] => rfl
  | i, _ :: as => by simp [jsMapIdx, jsMapIdx_length f (i + 1) as]

theorem jsMapIdx_get? {α β : Type} (f : Nat → α → β) :
    ∀ (l : List α) (i k : Nat),
      (jsMapIdx f i l).get? k = (l.get? k).map (f (i + k))
  | [], i, k => by simp [jsMapIdx]
  | a :: as, i, 0 => by simp [jsMapIdx]
  | a :: as, i, k + 1 => by
      have h := jsMapIdx_get? f as (i + 1) k
      simp only [jsMapIdx, List.get?]
      rw [h]
      have : i + 1 + k = i + (k + 1) := by omega
      rw [this]

theorem jsMapIdx_mem {α β : Type} (f : Nat → α → β) :
    ∀ (l : List α) (i : Nat) (b : β), b ∈ jsMapIdx f i l →
      ∃ (j : Nat) (a : α), l.get? j = some a ∧ b = f (i + j) a
  | [], _, _, h => by simp [jsMapIdx] at h
  | a :: as, i, b, h => by
      simp only [jsMapIdx, List.mem_cons] at h
      rcases h with h | h
      · exact ⟨0, a, by simp, by simpa using h⟩
      · obtain ⟨j, a', hj, hb⟩ := jsMapIdx_mem f as (i + 1) b h
        refine ⟨j + 1, a', by simpa using hj, ?_⟩
        rw [hb]
        congr 1
        omega

theorem tabulateFrom_length {β : Type} (g : Nat → β) :
    ∀ (n i : Nat), (tabulateFrom g i n).length = n
  | 0, _ => rfl
  | n + 1, i => by simp [tabulateFrom, tabulateFrom_length g n (i + 1)]

theorem tabulateFrom_get? {β : Type} (g : Nat → β) :
    ∀ (n i k : Nat), k < n →
      (tabulateFrom g i n).get? k = some (g (i + k))
  | 0, _, _, h => by omega
  | n + 1, i, 0, _ => by simp [tabulateFrom]
  | n + 1, i, k + 1, h => by
      have hr := tabulateFrom_get? g n (i + 1) k (by omega)
      simp only [tabulateFrom, List.get?]
      rw [hr]
      have : i + 1 + k = i + (k + 1) := by omega
      rw [this]

theorem optTabulateFrom_eq {β : Type} (f : Nat → Option β) (g : Nat → β) :
    ∀ (n i : Nat), (∀ j, j < n → f (i + j) = some (g (i + j))) →
      optTabulateFrom f i n = some (tabulateFrom g i n)
  | 0, i, _ => rfl
  | n + 1, i, h => by
      have h0 : f i = some (g i) := by simpa using h 0 (by omega)
      have hr : optTabulateFrom f (i + 1) n = some (tabulateFrom g (i + 1) n) := by
        refine optTabulateFrom_eq f g n (i + 1) ?_
        intro j hj
        have := h (j + 1) (by omega)
        have heq : i + (j + 1) = i + 1 + j := by omega
        rwa [heq] at this
      simp [optTabulateFrom, tabulateFrom, h0, hr]

theorem buildColAux_eq (i : Nat) :
    ∀ (layers : List (PLayer Row)) (acc : List (String × Int)),
      (∀ l ∈ layers, i < l.values.length) →
      buildColAux i layers acc = some (colOfAux i layers acc)
  | [], _, _ => rfl
  | l :: ls, acc, h => by
      have hl : i < l.values.length := h l (by simp)
      have hget : l.values.get? i = some (l.values.get ⟨i, hl⟩) :=
        List.get?_eq_get hl
      have hy : (l.values.get ⟨i, hl⟩).y = yAt l i := by
        simp only [yAt, hget]
        rfl
      simp only [buildColAux, colOfAux, hget, hy]
      exact buildColAux_eq i ls _ (fun x hx => h x (by simp [hx]))

theorem colOfAux_lookup_notmem (i : Nat) :
    ∀ (layers : List (PLayer Row)) (acc : List (String × Int)) (k : String),
      k ∉ layers.map PLayer.name →
      jsGet (colOfAux i layers acc) k = jsGet acc k
  | [], _, _, _ => rfl
  | l :: ls, acc, k, h => by
      simp only [List.map_cons, List.mem_cons, not_or] at h
      rw [colOfAux, colOfAux_lookup_notmem i ls _ k h.2,
        jsGet_jsSet_ne _ _ _ _ h.1]

theorem colOfAux_lookup (i : Nat) :
    ∀ (layers : List (PLayer Row)) (acc : List (String × Int)) (t : Nat)
      (pl : PLayer Row), (layers.map PLayer.name).Nodup →
      layers.get? t = some pl →
      jsGet (colOfAux i layers acc) pl.name = some (yAt pl i)
  | [], _, t, _, _, hget => by simp at hget
  | l :: ls, acc, 0, pl, hnd, hget => by
      have hpl : pl = l := by simpa using hget.symm
      subst hpl
      simp only [List.map_cons, List.nodup_cons] at hnd
      rw [colOfAux, colOfAux_lookup_notmem i ls _ _ hnd.1,
        jsGet_jsSet_self]
  | l :: ls, acc, t + 1, pl, hnd, hget => by
      simp only [List.map_cons, List.nodup_cons] at hnd
      have hget' : ls.get? t = some pl := by simpa using hget
      rw [colOfAux]
      exact colOfAux_lookup i ls _ t pl hnd.2 hget'

theorem sumFirst_congr (f g : Nat → Int) :
    ∀ (n : Nat), (∀ t, t < n → f t = g t) → sumFirst f n = sumFirst g n
  | 0, _ => rfl
  | n + 1, h => by
      rw [sumFirst, sumFirst, sumFirst_congr f g n (fun t ht => h t (by omega)),
        h n (by omega)]

theorem d3min_map_some : ∀ (l : List Int), d3min (l.map some) = minOfList l
  | [] => rfl
  | a :: rest => by simp [d3min, minOfList, d3min_map_some rest]

theorem d3max_map_some : ∀ (l : List Int), d3max (l.map some) = maxOfList l
  | [] => rfl
  | a :: rest => by simp [d3max, maxOfList, d3max_map_some rest]

theorem dataFn_success (cfg : ChartCfg Row) (hs : List (String × Bool))
    (reg : List (SLayer Row)) (l0 : DLayer Row) (ls : List (DLayer Row))
    (hvis : (StackedDataAdaptor.data reg).filter
      (fun l => StackMixin.visibility hs l.name) = l0 :: ls)
    (hlen : ∀ l ∈ (l0 :: ls).map (prepareValues cfg),
      (prepareValues cfg l0).values.length ≤ l.values.length) :
    StackMixin.dataFn cfg hs reg
      = some (jsMapIdx
          (writeback cfg (((l0 :: ls).map (prepareValues cfg)).map PLayer.name)
            (tabulateFrom (colOf ((l0 :: ls).map (prepareValues cfg))) 0
              (prepareValues cfg l0).values.length))
          0 ((l0 :: ls).map (prepareValues cfg))) := by
  have hcols : optTabulateFrom (buildCol ((l0 :: ls).map (prepareValues cfg))) 0
      (prepareValues cfg l0).values.length
      = some (tabulateFrom (colOf ((l0 :: ls).map (prepareValues cfg))) 0
          (prepareValues cfg l0).values.length) := by
    apply optTabulateFrom_eq
    intro j hj
    apply buildColAux_eq
    intro l hl
    exact lt_of_lt_of_le (by omega : 0 + j < (prepareValues cfg l0).values.length)
      (hlen l hl)
  unfold StackMixin.dataFn
  rw [hvis]
  simp only [hcols, Option.map_some']

end Lemmas

section Claims

variable {Row : Type}

/-- Claim C1 (amended): for a composition pass with at least one visible
layer, provided the visible layers carry pairwise-distinct names and every
visible layer's `values` list has the same length as the first visible
layer's, the pass succeeds and writes, for the layer at stack position `i`
and every point index `k`, `y0 = Σ_{j<i} y[j][k]` and `y1 = y0 + y[i][k]`;
in particular the first visible layer's `y0` is `0` at every index. -/
theorem stackMixin_cumulative_offsets (cfg : ChartCfg Row)
    (hs : List (String × Bool)) (reg : List (SLayer Row))
    (l0 : DLayer Row) (ls : List (DLayer Row))
    (hvis : (StackedDataAdaptor.data reg).filter
      (fun l => StackMixin.visibility hs l.name) = l0 :: ls)
    (hnodup : ((l0 :: ls).map DLayer.name).Nodup)
    (hlen : ∀ l ∈ l0 :: ls, (prepareValues cfg l).values.length
      = (prepareValues cfg l0).values.length) :
    ∃ out, StackMixin.dataFn cfg hs reg = some out ∧
      out.length = (l0 :: ls).length ∧
      ∀ i pl, out.get? i = some pl → ∀ k p, pl.values.get? k = some p →
        p.y0 = some (sumFirst (fun j => layerY out j k) i) ∧
        p.y1 = some (sumFirst (fun j => layerY out j k) i + p.y) ∧
        (i = 0 → p.y0 = some 0) := by
  set P : List (PLayer Row) := (l0 :: ls).map (prepareValues cfg) with hP
  set keys : List String := P.map PLayer.name with hkeys
  set n : Nat := (prepareValues cfg l0).values.length with hn
  set cols : List (List (String × Int)) := tabulateFrom (colOf P) 0 n with hcols
  have hPlen : ∀ pl ∈ P, pl.values.length = n := by
    intro pl hpl
    rw [hP] at hpl
    obtain ⟨l, hl, rfl⟩ := List.mem_map.mp hpl
    exact hlen l hl
  have hnames : keys = (l0 :: ls).map DLayer.name := by
    rw [hkeys, hP, List.map_map]
    rfl
  set out : List (PLayer Row) := jsMapIdx (writeback cfg keys cols) 0 P
    with hout
  have hdata : StackMixin.dataFn cfg hs reg = some out :=
    dataFn_success cfg hs reg l0 ls hvis
      (fun l hl => le_of_eq (hPlen l hl).symm)
  refine ⟨out, hdata, ?_, ?_⟩
  · rw [hout, jsMapIdx_length, hP, List.length_map]
  intro i pl hpl k p hp
  have hgetP : out.get? i = (P.get? i).map (writeback cfg keys cols i) := by
    rw [hout, jsMapIdx_get?]
    simp
  rw [hgetP] at hpl
  obtain ⟨pli, hpli, hplw⟩ := Option.map_eq_some'.mp hpl
  have hiP : i < P.length := (List.get?_eq_some.mp hpli).choose
  -- unpack the point written back at index k
  have hvals : pl.values
      = jsMapIdx (fun j q =>
          match cols.get? j with
          | some col =>
              { q with
                y0 := some (stackY0 keys col i)
                y1 := some (stackY1 keys col i) }
          | none => q) 0 pli.values := by
    rw [← hplw]
    rfl
  rw [hvals, jsMapIdx_get?] at hp
  simp only [Nat.zero_add] at hp
  obtain ⟨p0, hp0, hpw⟩ := Option.map_eq_some'.mp hp
  have hkn : k < n := by
    have := (List.get?_eq_some.mp hp0).choose
    rwa [hPlen pli (List.get?_mem hpli)] at this
  have hcolk : cols.get? k = some (colOf P k) := by
    rw [hcols]
    have := tabulateFrom_get? (colOf P) n 0 k hkn
    simpa using this
  rw [hcolk] at hpw
  -- the per-layer column value at a visible layer's name is its own y
  have hnd : (P.map PLayer.name).Nodup := by
    rw [← hkeys, hnames]
    exact hnodup
  have hcolval : ∀ plt t, P.get? t = some plt →
      colVal (colOf P k) plt.name = yAt plt k := by
    intro plt t hplt
    rw [colVal, colOf, colOfAux_lookup k P [] t plt hnd hplt]
    rfl
  have hLY : ∀ t plt, P.get? t = some plt → layerY out t k = yAt plt k := by
    intro t plt hplt
    have houtt : out.get? t = some (writeback cfg keys cols t plt) := by
      rw [hout, jsMapIdx_get?, hplt]
      simp
    have hkt : k < plt.values.length := by
      rw [hPlen plt (List.get?_mem hplt)]
      exact hkn
    have hp0t : plt.values.get? k = some (plt.values.get ⟨k, hkt⟩) :=
      List.get?_eq_get hkt
    have hwv : (writeback cfg keys cols t plt).values.get? k
        = some { plt.values.get ⟨k, hkt⟩ with
            y0 := some (stackY0 keys (colOf P k) t)
            y1 := some (stackY1 keys (colOf P k) t) } := by
      simp only [writeback, jsMapIdx_get?, Nat.zero_add, hp0t, hcolk,
        Option.map_some']
    have hyval : yAt plt k = (plt.values.get ⟨k, hkt⟩).y := by
      simp only [yAt, hp0t]
      rfl
    show (((out.get? t).bind fun l => l.values.get? k).map SPoint.y).getD 0
      = yAt plt k
    rw [houtt]
    show (((writeback cfg keys cols t plt).values.get? k).map SPoint.y).getD 0
      = yAt plt k
    rw [hwv, hyval]
    rfl
  have hkeyD : ∀ t plt, P.get? t = some plt → keys.getD t "" = plt.name := by
    intro t plt hplt
    rw [List.getD_eq_getD_get? keys "" t, hkeys, List.get?_map, hplt]
    rfl
  -- replace p with the written-back point
  have hpw' : p = { p0 with
      y0 := some (stackY0 keys (colOf P k) i)
      y1 := some (stackY1 keys (colOf P k) i) } := by
    rw [← hpw]
  subst hpw'
  have hmain : stackY0 keys (colOf P k) i
      = sumFirst (fun j => layerY out j k) i := by
    rw [stackY0]
    apply sumFirst_congr
    intro t ht
    have htP : t < P.length := lt_trans ht hiP
    have hplt : P.get? t = some (P.get ⟨t, htP⟩) := List.get?_eq_get htP
    rw [hkeyD t _ hplt, hcolval _ t hplt, hLY t _ hplt]
  have hownY : colVal (colOf P k) (keys.getD i "") = p0.y := by
    rw [hkeyD i pli hpli, hcolval pli i hpli, yAt, hp0]
    rfl
  refine ⟨?_, ?_, ?_⟩
  · show some (stackY0 keys (colOf P k) i)
        = some (sumFirst (fun j => layerY out j k) i)
    rw [hmain]
  · show some (stackY1 keys (colOf P k) i)
        = some (sumFirst (fun j => layerY out j k) i + p0.y)
    show some (stackY0 keys (colOf P k) i + colVal (colOf P k) (keys.getD i ""))
        = some (sumFirst (fun j => layerY out j k) i + p0.y)
    rw [hmain, hownY]
  · intro hi
    subst hi
    rfl

/-- Concrete row type for the witness scenarios: `(key, value)` pairs. -/
def RowW : Type := Int × Int

/-- The chart configuration of the spec's concrete scenario: fixed numeric
domain `[1, 2]`, no evading, no padding. -/
def cfgW : ChartCfg RowW where
  keyAccessor := fun d _ => d.1
  valueAccessor := fun d _ => d.2
  hasX := true
  xDomainMin := 1
  xDomainMax := 2
  isOrdinal := false
  elasticX := false
  evadeDomainFilter := false
  yAxisPadding := 0
  xAxisPadding := 0

/-- A configuration with no `x` scale (filter constantly true). -/
def cfgNoX : ChartCfg RowW where
  keyAccessor := fun d _ => d.1
  valueAccessor := fun d _ => d.2
  hasX := false
  xDomainMin := 0
  xDomainMax := 0
  isOrdinal := false
  elasticX := false
  evadeDomainFilter := false
  yAxisPadding := 0
  xAxisPadding := 0

/-- Layer A of the spec's concrete scenario: rows `(1,10), (2,20)`. -/
def regW : List (SLayer RowW) :=
  [⟨[(1, 10), (2, 20)], "A", none⟩, ⟨[(1, 5), (2, 15)], "B", none⟩]

/-- The `data()` image of layer A of `regW`. -/
def dlAW : DLayer RowW := ⟨"A", none, [(1, 10), (2, 20)]⟩

/-- The `data()` image of layer B of `regW`. -/
def dlBW : DLayer RowW := ⟨"B", none, [(1, 5), (2, 15)]⟩

/-- A registry with two layers sharing the name `"a"` (nothing prevents
this): ys `1` and `2` at a single key. -/
def regD : List (SLayer RowW) :=
  [⟨[(1, 1)], "a", none⟩, ⟨[(1, 2)], "a", none⟩]

/-- A registry whose first layer has 2 points and second layer 3 points. -/
def regM : List (SLayer RowW) :=
  [⟨[(1, 10), (2, 20)], "a", none⟩, ⟨[(1, 5), (2, 15), (3, 7)], "b", none⟩]

/-- Witness: the cumulative-offset theorem applied to the spec's concrete
scenario (stack `[A, B]` with A rows `(1,10),(2,20)` and B rows
`(1,5),(2,15)`, fixed domain `[1,2]`). -/
theorem stackMixin_cumulative_offsets_witness :
    ∃ out, StackMixin.dataFn cfgW [] regW = some out ∧
      out.length = (dlAW :: [dlBW]).length ∧
      ∀ i pl, out.get? i = some pl → ∀ k p, pl.values.get? k = some p →
        p.y0 = some (sumFirst (fun j => layerY out j k) i) ∧
        p.y1 = some (sumFirst (fun j => layerY out j k) i + p.y) ∧
        (i = 0 → p.y0 = some 0) :=
  stackMixin_cumulative_offsets cfgW [] regW dlAW [dlBW] rfl (by decide)
    (by decide)

/-- Counterexample to claim C1 as stated: with two visible layers both
named `"a"` (ys `1` and `2` at one key) the pass writes the first layer's
`y1` as `2` over a `y0` of `0`, although the layer's own `y` is `1`: the
written `y1` is not `y0` plus the layer's own `y`, because the column
object keyed by name retains only the last equally-named layer's value. -/
theorem stackMixin_cumulative_offsets_cex :
    ¬ (∀ out, StackMixin.dataFn cfgNoX [] regD = some out →
        ∀ i pl, out.get? i = some pl → ∀ k p, pl.values.get? k = some p →
          p.y1 = some (p.y0.getD 0 + p.y)) := by
  intro h
  have hc := h ((StackMixin.dataFn cfgNoX [] regD).getD []) rfl 0 _ rfl 0 _ rfl
  exact absurd hc (by decide)

/-- Every point produced by `_prepareValues` still has `y0`/`y1`
`undefined`: the write-back is the only place they are set. -/
theorem prepareValues_y_unset (cfg : ChartCfg Row) (l : DLayer Row) :
    ∀ p ∈ (prepareValues cfg l).values, p.y0 = none ∧ p.y1 = none := by
  intro p hp
  have hall : p ∈ allValuesOf cfg l := by
    by_cases he : cfg.evadeDomainFilter
    · simpa [prepareValues, he] using hp
    · have := hp
      simp only [prepareValues, he] at this
      simpa using (List.mem_filter.mp (by simpa using this)).1
  obtain ⟨j, d, _, rfl⟩ := jsMapIdx_mem _ _ _ _ hall
  exact ⟨rfl, rfl⟩

/-- Claim C2 (amended): when visible layers yield differing numbers of
points, the composition raises no stack-alignment error. As long as no
visible layer is shorter than the first visible layer, the pass completes
and silently zips point lists by index: the canonical row count is the
first layer's, and every point of a longer layer at an index at or beyond
that count is left unstacked, its `y0`/`y1` still `undefined`. (Only a
later layer shorter than the first aborts the pass, and then with a raw
`TypeError`, not a distinct stack-alignment error.) -/
theorem stackMixin_silent_zip (cfg : ChartCfg Row)
    (hs : List (String × Bool)) (reg : List (SLayer Row))
    (l0 : DLayer Row) (ls : List (DLayer Row))
    (hvis : (StackedDataAdaptor.data reg).filter
      (fun l => StackMixin.visibility hs l.name) = l0 :: ls)
    (hlen : ∀ l ∈ l0 :: ls, (prepareValues cfg l0).values.length
      ≤ (prepareValues cfg l).values.length) :
    ∃ out, StackMixin.dataFn cfg hs reg = some out ∧
      ∀ i pl, out.get? i = some pl → ∀ k p, pl.values.get? k = some p →
        (prepareValues cfg l0).values.length ≤ k →
        p.y0 = none ∧ p.y1 = none := by
  set P : List (PLayer Row) := (l0 :: ls).map (prepareValues cfg) with hP
  set keys : List String := P.map PLayer.name with hkeys
  set n : Nat := (prepareValues cfg l0).values.length with hn
  set cols : List (List (String × Int)) := tabulateFrom (colOf P) 0 n
    with hcols
  set out : List (PLayer Row) := jsMapIdx (writeback cfg keys cols) 0 P
    with hout
  have hlen' : ∀ l ∈ P, n ≤ l.values.length := by
    intro pl hpl
    rw [hP] at hpl
    obtain ⟨l, hl, rfl⟩ := List.mem_map.mp hpl
    exact hlen l hl
  have hdata : StackMixin.dataFn cfg hs reg = some out :=
    dataFn_success cfg hs reg l0 ls hvis hlen'
  refine ⟨out, hdata, ?_⟩
  intro i pl hpl k p hp hk
  rw [hout, jsMapIdx_get?] at hpl
  obtain ⟨pli, hpli, hplw⟩ := Option.map_eq_some'.mp hpl
  have hvals : pl.values
      = jsMapIdx (fun j q =>
          match cols.get? j with
          | some col =>
              { q with
                y0 := some (stackY0 keys col (0 + i))
                y1 := some (stackY1 keys col (0 + i)) }
          | none => q) 0 pli.values := by
    rw [← hplw]
    rfl
  rw [hvals, jsMapIdx_get?] at hp
  obtain ⟨p0, hp0, hpw⟩ := Option.map_eq_some'.mp hp
  have hcolnone : cols.get? k = none := by
    rw [List.get?_eq_none]
    rw [hcols, tabulateFrom_length]
    exact hk
  rw [Nat.zero_add] at hpw
  rw [hcolnone] at hpw
  have hp0P : p0 ∈ pli.values := List.get?_mem hp0
  have hpliP : pli ∈ P := List.get?_mem hpli
  have hpli' : ∃ l ∈ l0 :: ls, prepareValues cfg l = pli := by
    rw [hP] at hpliP
    exact List.mem_map.mp hpliP
  obtain ⟨l, _, rfl⟩ := hpli'
  have := prepareValues_y_unset cfg l p0 hp0P
  rw [← hpw]
  exact this

/-- Witness: the silent-zip theorem applied to `regM` (first visible layer
2 points, second 3). -/
theorem stackMixin_silent_zip_witness :
    ∃ out, StackMixin.dataFn cfgNoX [] regM = some out ∧
      ∀ i pl, out.get? i = some pl → ∀ k p, pl.values.get? k = some p →
        (prepareValues cfgNoX ⟨"a", none, [(1, 10), (2, 20)]⟩).values.length
          ≤ k →
        p.y0 = none ∧ p.y1 = none :=
  stackMixin_silent_zip cfgNoX [] regM ⟨"a", none, [(1, 10), (2, 20)]⟩
    [⟨"b", none, [(1, 5), (2, 15), (3, 7)]⟩] rfl (by decide)

/-- Counterexample to claim C2 as stated: with a first visible layer of 2
points and a second of 3 for the same pass, the composition entry point
does not raise any error — it returns a result in which the two common
indices are zipped (the second layer's third point is left unstacked with
`y0`/`y1` `undefined`). -/
theorem stackMixin_silent_zip_cex :
    (StackMixin.dataFn cfgNoX [] regM).isSome = true ∧
    ((StackMixin.dataFn cfgNoX [] regM).getD []).map
        (fun l => l.values.map (fun p => (p.y, p.y0, p.y1)))
      = [[(10, some 0, some 10), (20, some 0, some 20)],
         [(5, some 10, some 15), (15, some 20, some 35), (7, none, none)]] :=
  ⟨rfl, rfl⟩

/-- Every layer in a composition result carries a name that is not hidden:
the data callback filters by visibility before stacking. -/
theorem dataFn_output_visible (cfg : ChartCfg Row) (hs : List (String × Bool))
    (reg : List (SLayer Row)) :
    ∀ pl ∈ (StackMixin.dataFn cfg hs reg).getD [],
      isStackHidden hs pl.name = false := by
  intro pl hpl
  rcases hm : (StackedDataAdaptor.data reg).filter
      (fun l => StackMixin.visibility hs l.name) with _ | ⟨l0, ls⟩
  · simp only [StackMixin.dataFn, hm] at hpl
    simp at hpl
  · simp only [StackMixin.dataFn, hm] at hpl
    rcases hc : optTabulateFrom
        (buildCol ((l0 :: ls).map (prepareValues cfg))) 0
        (prepareValues cfg l0).values.length with _ | cols
    · rw [hc] at hpl
      simp at hpl
    · rw [hc] at hpl
      simp only [Option.map_some', Option.getD_some] at hpl
      obtain ⟨j, plj, hj, rfl⟩ := jsMapIdx_mem _ _ _ _ hpl
      have hmem : plj ∈ (l0 :: ls).map (prepareValues cfg) :=
        List.get?_mem hj
      obtain ⟨l, hlmem, rfl⟩ := List.mem_map.mp hmem
      rw [← hm] at hlmem
      have hvisl := (List.mem_filter.mp hlmem).2
      show isStackHidden hs l.name = false
      simpa [StackMixin.visibility] using hvisl

/-- Claim C3: a hidden layer is absent from the composition output and
contributes to no other layer's offsets (the composition of any registry
containing it equals the composition with it removed); every composed
layer's name is un-hidden; and `legendables()` still emits one entry per
registered layer in registry order with the layer's name, its hidden flag
from the visibility set, and the color provider's color. -/
theorem stackMixin_hidden_layer_legend {C : Type} (cfg : ChartCfg Row)
    (hs : List (String × Bool)) (reg1 reg2 : List (SLayer Row))
    (h : SLayer Row) (getColor : SLayer Row → Nat → C)
    (hhid : isStackHidden hs h.name = true) :
    StackMixin.dataFn cfg hs (reg1 ++ h :: reg2)
      = StackMixin.dataFn cfg hs (reg1 ++ reg2) ∧
    (∀ pl ∈ (StackMixin.dataFn cfg hs (reg1 ++ h :: reg2)).getD [],
      isStackHidden hs pl.name = false) ∧
    ∀ (reg : List (SLayer Row)),
      (StackMixin.legendables hs getColor reg).length = reg.length ∧
      ∀ i layer, reg.get? i = some layer →
        (StackMixin.legendables hs getColor reg).get? i
          = some ⟨layer.name, isStackHidden hs layer.name, getColor layer i⟩ := by
  refine ⟨?_, dataFn_output_visible cfg hs (reg1 ++ h :: reg2), ?_⟩
  · have hfilter : (StackedDataAdaptor.data (reg1 ++ h :: reg2)).filter
        (fun l => StackMixin.visibility hs l.name)
        = (StackedDataAdaptor.data (reg1 ++ reg2)).filter
          (fun l => StackMixin.visibility hs l.name) := by
      simp only [StackedDataAdaptor.data, List.map_append, List.map_cons,
        List.filter_append, List.filter_cons]
      simp [StackMixin.visibility, hhid]
    unfold StackMixin.dataFn
    rw [hfilter]
  · intro reg
    refine ⟨jsMapIdx_length _ _ _, ?_⟩
    intro i layer hlayer
    rw [StackMixin.legendables, jsMapIdx_get?, hlayer]
    simp [StackMixin.visibility, Bool.not_not]

/-- Witness: the hidden-layer theorem at a concrete input — registry
`[A, H, B]` with `H` hidden, the color provider returning the index. -/
theorem stackMixin_hidden_layer_legend_witness :
    StackMixin.dataFn cfgNoX [("H", true)]
        ([⟨[(1, 10)], "A", none⟩] ++ (⟨[(1, 7)], "H", none⟩ : SLayer RowW)
          :: [⟨[(1, 5)], "B", none⟩])
      = StackMixin.dataFn cfgNoX [("H", true)]
          ([⟨[(1, 10)], "A", none⟩] ++ [⟨[(1, 5)], "B", none⟩]) ∧
    (∀ pl ∈ (StackMixin.dataFn cfgNoX [("H", true)]
        ([⟨[(1, 10)], "A", none⟩] ++ (⟨[(1, 7)], "H", none⟩ : SLayer RowW)
          :: [⟨[(1, 5)], "B", none⟩])).getD [],
      isStackHidden [("H", true)] pl.name = false) ∧
    ∀ (reg : List (SLayer RowW)),
      (StackMixin.legendables [("H", true)] (fun _ i => i) reg).length
        = reg.length ∧
      ∀ i layer, reg.get? i = some layer →
        (StackMixin.legendables [("H", true)] (fun _ i => i) reg).get? i
          = some ⟨layer.name, isStackHidden [("H", true)] layer.name, i⟩ :=
  stackMixin_hidden_layer_legend cfgNoX [("H", true)] [⟨[(1, 10)], "A", none⟩]
    [⟨[(1, 5)], "B", none⟩] ⟨[(1, 7)], "H", none⟩ (fun _ i => i) (by decide)

/-- Claim C4: point extraction maps every row through the key function and
the layer's accessor (or the shared value function when absent);
`domainValues` keeps exactly the points passing the mode filter — with an
`x` scale: ordinal and elastic domains pass everything, a fixed numeric
domain keeps `x` within `[domainMin, domainMax]` inclusive — and `values`
is the unfiltered list when the evade flag is set, else `domainValues`. -/
theorem stackMixin_prepare_and_filter (cfg : ChartCfg Row) (l : DLayer Row) :
    (allValuesOf cfg l).length = l.rawData.length ∧
    (∀ i d, l.rawData.get? i = some d →
      (allValuesOf cfg l).get? i = some
        { x := cfg.keyAccessor d i
          y := (l.accessor.getD cfg.valueAccessor) d i
          data := d
          name := l.name
          y0 := none
          y1 := none }) ∧
    (prepareValues cfg l).domainValues
      = (allValuesOf cfg l).filter (domainFilterPass cfg) ∧
    (cfg.evadeDomainFilter = true →
      (prepareValues cfg l).values = allValuesOf cfg l) ∧
    (cfg.evadeDomainFilter = false →
      (prepareValues cfg l).values = (prepareValues cfg l).domainValues) ∧
    (∀ p : SPoint Row, cfg.hasX = true →
      (cfg.isOrdinal = true → domainFilterPass cfg p = true) ∧
      (cfg.isOrdinal = false → cfg.elasticX = true →
        domainFilterPass cfg p = true) ∧
      (cfg.isOrdinal = false → cfg.elasticX = false →
        (domainFilterPass cfg p = true ↔
          cfg.xDomainMin ≤ p.x ∧ p.x ≤ cfg.xDomainMax))) := by
  refine ⟨jsMapIdx_length _ _ _, ?_, rfl, ?_, ?_, ?_⟩
  · intro i d hd
    rw [allValuesOf, jsMapIdx_get?, hd]
    simp
  · intro he
    simp [prepareValues, he]
  · intro he
    simp [prepareValues, he]
  · intro p hx
    refine ⟨?_, ?_, ?_⟩
    · intro ho
      simp [domainFilterPass, hx, ho]
    · intro ho hel
      simp [domainFilterPass, hx, ho, hel]
    · intro ho hel
      simp [domainFilterPass, hx, ho, hel]

/-- Witness: the extraction/filter theorem evaluated at the concrete
scenario config (fixed domain `[1, 2]`) and layer A; the range test is
exercised at a point with `x = 3`. -/
theorem stackMixin_prepare_and_filter_witness :
    (prepareValues cfgW dlAW).domainValues
      = (allValuesOf cfgW dlAW).filter (domainFilterPass cfgW) ∧
    (prepareValues cfgW dlAW).values = (prepareValues cfgW dlAW).domainValues ∧
    (domainFilterPass cfgW ⟨3, 0, (3, 0), "A", none, none⟩ = true ↔
      (1 : Int) ≤ 3 ∧ (3 : Int) ≤ 2) :=
  ⟨(stackMixin_prepare_and_filter cfgW dlAW).2.2.1,
    (stackMixin_prepare_and_filter cfgW dlAW).2.2.2.2.1 rfl,
    (stackMixin_prepare_and_filter cfgW dlAW).2.2.2.2.2
      ⟨3, 0, (3, 0), "A", none, none⟩ rfl |>.2.2 rfl rfl⟩

/-- Claim C5: over the flattened `domainValues` of all visible layers
(here: a successful composition flattening to `pts` whose `y0` are all
set), the extent calculators return
`yAxisMin = min (y < 0 ? y + y0 : y0) - yPadding`,
`yAxisMax = max (y > 0 ? y + y0 : y0) + yPadding`,
`xAxisMin = min x - xPadding` and `xAxisMax = max x + xPadding`. -/
theorem stackMixin_axis_extents (cfg : ChartCfg Row)
    (hs : List (String × Bool)) (reg : List (SLayer Row))
    (pts : List (SPoint Row))
    (hfl : StackMixin.flattenStack cfg hs reg = some pts)
    (hy0 : ∀ p ∈ pts, p.y0.isSome = true) :
    StackMixin.yAxisMin cfg hs reg
      = some ((minOfList (pts.map (fun p =>
          if p.y < 0 then p.y + p.y0.getD 0 else p.y0.getD 0))).map
            (fun v => v - cfg.yAxisPadding)) ∧
    StackMixin.yAxisMax cfg hs reg
      = some ((maxOfList (pts.map (fun p =>
          if p.y > 0 then p.y + p.y0.getD 0 else p.y0.getD 0))).map
            (fun v => v + cfg.yAxisPadding)) ∧
    StackMixin.xAxisMin cfg hs reg
      = some ((minOfList (pts.map SPoint.x)).map
          (fun v => v - cfg.xAxisPadding)) ∧
    StackMixin.xAxisMax cfg hs reg
      = some ((maxOfList (pts.map SPoint.x)).map
          (fun v => v + cfg.xAxisPadding)) := by
  have hmapmin : pts.map yMinAccessor
      = (pts.map (fun p =>
          if p.y < 0 then p.y + p.y0.getD 0 else p.y0.getD 0)).map some := by
    rw [List.map_map]
    apply List.map_congr_left
    intro p hp
    obtain ⟨b, hb⟩ := Option.isSome_iff_exists.mp (hy0 p hp)
    simp [yMinAccessor, hb]
  have hmapmax : pts.map yMaxAccessor
      = (pts.map (fun p =>
          if p.y > 0 then p.y + p.y0.getD 0 else p.y0.getD 0)).map some := by
    rw [List.map_map]
    apply List.map_congr_left
    intro p hp
    obtain ⟨b, hb⟩ := Option.isSome_iff_exists.mp (hy0 p hp)
    simp [yMaxAccessor, hb]
  have hmapx : pts.map (fun p => some p.x) = (pts.map SPoint.x).map some := by
    rw [List.map_map]
    rfl
  refine ⟨?_, ?_, ?_, ?_⟩
  · rw [StackMixin.yAxisMin, hfl, Option.map_some', hmapmin, d3min_map_some]
    rfl
  · rw [StackMixin.yAxisMax, hfl, Option.map_some', hmapmax, d3max_map_some]
    rfl
  · rw [StackMixin.xAxisMin, hfl, Option.map_some', hmapx, d3min_map_some]
    rfl
  · rw [StackMixin.xAxisMax, hfl, Option.map_some', hmapx, d3max_map_some]
    rfl

/-- The flattened stacked points of the spec's concrete scenario. -/
def ptsW : List (SPoint RowW) :=
  [⟨1, 10, (1, 10), "A", some 0, some 10⟩,
   ⟨2, 20, (2, 20), "A", some 0, some 20⟩,
   ⟨1, 5, (1, 5), "B", some 10, some 15⟩,
   ⟨2, 15, (2, 15), "B", some 20, some 35⟩]

/-- Witness: the extent theorem applied to the spec's concrete scenario
(`yAxisMin = 0`, `yAxisMax = 35`, `xAxisMin = 1`, `xAxisMax = 2` with zero
padding). -/
theorem stackMixin_axis_extents_witness :
    (StackMixin.yAxisMin cfgW [] regW
        = some ((minOfList (ptsW.map (fun p =>
            if p.y < 0 then p.y + p.y0.getD 0 else p.y0.getD 0))).map
              (fun v => v - cfgW.yAxisPadding)) ∧
      StackMixin.yAxisMax cfgW [] regW
        = some ((maxOfList (ptsW.map (fun p =>
            if p.y > 0 then p.y + p.y0.getD 0 else p.y0.getD 0))).map
              (fun v => v + cfgW.yAxisPadding)) ∧
      StackMixin.xAxisMin cfgW [] regW
        = some ((minOfList (ptsW.map SPoint.x)).map
            (fun v => v - cfgW.xAxisPadding)) ∧
      StackMixin.xAxisMax cfgW [] regW
        = some ((maxOfList (ptsW.map SPoint.x)).map
            (fun v => v + cfgW.xAxisPadding))) ∧
    StackMixin.yAxisMin cfgW [] regW = some (some 0) ∧
    StackMixin.yAxisMax cfgW [] regW = some (some 35) ∧
    StackMixin.xAxisMin cfgW [] regW = some (some 1) ∧
    StackMixin.xAxisMax cfgW [] regW = some (some 2) :=
  ⟨stackMixin_axis_extents cfgW [] regW ptsW rfl (by decide),
    rfl, rfl, rfl, rfl⟩

/-- Claim C6: for a registry with zero layers or all layers hidden, the
composition entry point returns the empty result without any error, and
each of the four axis-extent calculators yields a non-numeric
(`undefined`/`NaN`, embedded `none`) result. -/
theorem stackMixin_empty_stack (cfg : ChartCfg Row)
    (hs : List (String × Bool)) (reg : List (SLayer Row))
    (hall : ∀ l ∈ reg, isStackHidden hs l.name = true) :
    StackMixin.dataFn cfg hs reg = some [] ∧
    StackMixin.yAxisMin cfg hs reg = some none ∧
    StackMixin.yAxisMax cfg hs reg = some none ∧
    StackMixin.xAxisMin cfg hs reg = some none ∧
    StackMixin.xAxisMax cfg hs reg = some none := by
  have hfil : (StackedDataAdaptor.data reg).filter
      (fun l => StackMixin.visibility hs l.name) = [] := by
    rw [List.filter_eq_nil]
    intro dl hdl
    obtain ⟨sl, hsl, rfl⟩ := List.mem_map.mp hdl
    simp [StackMixin.visibility, hall sl hsl]
  have hdata : StackMixin.dataFn cfg hs reg = some [] := by
    unfold StackMixin.dataFn
    rw [hfil]
  have hflat : StackMixin.flattenStack cfg hs reg = some [] := by
    rw [StackMixin.flattenStack, hdata]
    rfl
  refine ⟨hdata, ?_, ?_, ?_, ?_⟩
  · rw [StackMixin.yAxisMin, hflat]
    rfl
  · rw [StackMixin.yAxisMax, hflat]
    rfl
  · rw [StackMixin.xAxisMin, hflat]
    rfl
  · rw [StackMixin.xAxisMax, hflat]
    rfl

/-- Witness: the empty-stack theorem at the empty registry and at the
concrete scenario registry with both layers hidden. -/
theorem stackMixin_empty_stack_witness :
    (StackMixin.dataFn cfgW [] ([] : List (SLayer RowW)) = some [] ∧
      StackMixin.yAxisMin cfgW [] ([] : List (SLayer RowW)) = some none ∧
      StackMixin.yAxisMax cfgW [] ([] : List (SLayer RowW)) = some none ∧
      StackMixin.xAxisMin cfgW [] ([] : List (SLayer RowW)) = some none ∧
      StackMixin.xAxisMax cfgW [] ([] : List (SLayer RowW)) = some none) ∧
    (StackMixin.dataFn cfgW [("A", true), ("B", true)] regW = some [] ∧
      StackMixin.yAxisMin cfgW [("A", true), ("B", true)] regW = some none ∧
      StackMixin.yAxisMax cfgW [("A", true), ("B", true)] regW = some none ∧
      StackMixin.xAxisMin cfgW [("A", true), ("B", true)] regW = some none ∧
      StackMixin.xAxisMax cfgW [("A", true), ("B", true)] regW = some none) :=
  ⟨stackMixin_empty_stack cfgW [] [] (by decide),
    stackMixin_empty_stack cfgW [("A", true), ("B", true)] regW (by decide)⟩

/-- Claim C7 (amended): when `stack` is called without a string name, the
new layer's name is the registry length before the append converted to a
string; every call appends exactly one layer and never overwrites or
removes an existing one. No uniqueness check is performed, so an
explicitly-passed name may duplicate an existing layer's name and both
layers are retained. -/
theorem adaptor_stack_naming (stk : List (SLayer Row)) (g : List Row) :
    (∀ (a : JSArg Row) (nargs : Nat),
      (StackedDataAdaptor.stack stk g JSArg.undef a nargs).map SLayer.name
        = stk.map SLayer.name ++ [toString stk.length]) ∧
    (∀ (f : Row → Nat → Int) (a : JSArg Row) (nargs : Nat),
      (StackedDataAdaptor.stack stk g (JSArg.fn f) a nargs).map SLayer.name
        = stk.map SLayer.name ++ [toString stk.length]) ∧
    ∀ (nm acc : JSArg Row) (n2 : Nat),
      (StackedDataAdaptor.stack stk g nm acc n2).take stk.length = stk ∧
      (StackedDataAdaptor.stack stk g nm acc n2).length = stk.length + 1 := by
  refine ⟨?_, ?_, ?_⟩
  · intro a nargs
    simp [StackedDataAdaptor.stack]
  · intro f a nargs
    simp [StackedDataAdaptor.stack]
  · intro nm acc n2
    refine ⟨?_, ?_⟩ <;>
      cases nm <;> simp [StackedDataAdaptor.stack, List.take_left]

/-- Counterexample to claim C7 as stated: pushing a layer explicitly named
`"1"` and then a nameless layer (auto-named from the pre-append length `1`)
yields two layers both named `"1"`: names do not remain unique, and the
collision is neither rejected nor re-named. -/
theorem adaptor_stack_naming_cex :
    (StackedDataAdaptor.stack
        (StackedDataAdaptor.stack ([] : List (SLayer RowW)) []
          (JSArg.str "1") JSArg.undef 2)
        [] JSArg.undef JSArg.undef 1).map SLayer.name = ["1", "1"] ∧
    ¬ ((StackedDataAdaptor.stack
        (StackedDataAdaptor.stack ([] : List (SLayer RowW)) []
          (JSArg.str "1") JSArg.undef 2)
        [] JSArg.undef JSArg.undef 1).map SLayer.name).Nodup :=
  ⟨rfl, by decide⟩

/-- Claim C8 (amended): `hide(n); hide(n)` leaves exactly the state of a
single `hide(n)`; `hide(n); show(n)` makes `n` visible and leaves every
other name's visibility unchanged — hence it restores the original
visibility whenever `n` was originally visible (but a name hidden before
the pair ends visible, not hidden); a name absent from the set is treated
as visible. -/
theorem stackMixin_visibility_toggles (hs : List (String × Bool))
    (n : String) :
    StackMixin.hideStack (StackMixin.hideStack hs n) n
      = StackMixin.hideStack hs n ∧
    (∀ m, isStackHidden
        (StackMixin.showStack (StackMixin.hideStack hs n) n) m
      = if m = n then false else isStackHidden hs m) ∧
    (isStackHidden hs n = false →
      ∀ m, isStackHidden
          (StackMixin.showStack (StackMixin.hideStack hs n) n) m
        = isStackHidden hs m) ∧
    (jsGet hs n = none → isStackHidden hs n = false) := by
  have hpair : ∀ m, isStackHidden
      (StackMixin.showStack (StackMixin.hideStack hs n) n) m
    = if m = n then false else isStackHidden hs m := by
    intro m
    rw [StackMixin.showStack, StackMixin.hideStack, jsSet_jsSet,
      isStackHidden_jsSet]
  refine ⟨?_, hpair, ?_, ?_⟩
  · show jsSet (jsSet hs n true) n true = jsSet hs n true
    exact jsSet_jsSet hs n true true
  · intro hvisn m
    rw [hpair m]
    by_cases hm : m = n
    · subst hm
      rw [if_pos rfl, hvisn]
    · rw [if_neg hm]
  · intro hnone
    rw [isStackHidden, hnone]
    rfl

/-- Witness: the toggle theorem at the set `[("b", true)]` and name `"a"`
(visible by absence), checked at names `"a"`, `"b"` and `"c"`. -/
theorem stackMixin_visibility_toggles_witness :
    (StackMixin.hideStack (StackMixin.hideStack [("b", true)] "a") "a"
      = StackMixin.hideStack [("b", true)] "a") ∧
    (isStackHidden
        (StackMixin.showStack (StackMixin.hideStack [("b", true)] "a") "a")
        "a" = isStackHidden [("b", true)] "a") ∧
    (isStackHidden
        (StackMixin.showStack (StackMixin.hideStack [("b", true)] "a") "a")
        "b" = isStackHidden [("b", true)] "b") ∧
    isStackHidden [("b", true)] "c" = false :=
  ⟨(stackMixin_visibility_toggles [("b", true)] "a").1,
    (stackMixin_visibility_toggles [("b", true)] "a").2.2.1 (by decide) "a",
    (stackMixin_visibility_toggles [("b", true)] "a").2.2.1 (by decide) "b",
    (stackMixin_visibility_toggles [("b", true)] "c").2.2.2 (by decide)⟩

/-- Counterexample to claim C8 as stated: starting from a state in which
`"a"` is already hidden, `hide("a"); show("a")` leaves `"a"` visible — the
original visibility state (hidden) is not restored. -/
theorem stackMixin_visibility_toggles_cex :
    isStackHidden [("a", true)] "a" = true ∧
    isStackHidden
        (StackMixin.showStack (StackMixin.hideStack [("a", true)] "a") "a")
        "a" = false :=
  ⟨rfl, rfl⟩

/-- Claim C9: looking up the title for a stack name with no per-layer
override — any unknown stack name included — returns the chart-wide default
title (a total getter path, never an error), and calling `title` with a
function as first argument sets the chart-wide default, leaving the
per-layer overrides untouched. -/
theorem stackMixin_title_fallback {TF : Type} (st : TitleState TF) :
    (∀ s, jsGet st.titles s = none →
      StackMixin.title st (TitleArg.str s) TitleArg.undef
        = Sum.inl st.chartTitle) ∧
    ∀ (f : TF) (b : TitleArg TF),
      StackMixin.title st (TitleArg.fn f) b
        = Sum.inr { st with chartTitle := f } := by
  constructor
  · intro s hnone
    by_cases hse : s = ""
    · simp [StackMixin.title, hse]
    · simp [StackMixin.title, hse, hnone]
  · intro f b
    rfl

/-- A concrete title state: one per-layer override for `"x"`, chart-wide
default `7`, group name `"g"` (title functions are embedded as opaque
tokens, here `Nat`). -/
def stT : TitleState Nat := ⟨[("x", 5)], 7, "g"⟩

/-- Witness: the title theorem at `stT` — an unknown stack name falls back
to the chart default, and a function first argument replaces the chart
default. -/
theorem stackMixin_title_fallback_witness :
    (StackMixin.title stT (TitleArg.str "unknown") TitleArg.undef
      = Sum.inl stT.chartTitle) ∧
    StackMixin.title stT (TitleArg.fn 9) TitleArg.undef
      = Sum.inr { stT with chartTitle := 9 } :=
  ⟨(stackMixin_title_fallback stT).1 "unknown" (by decide),
    (stackMixin_title_fallback stT).2 9 TitleArg.undef⟩

/-- Claim C10: `group(g, n, f)` clears the layer registry and every
per-layer title override, attaches `g` as the sole layer (named `n`, or
`"0"` — the cleared registry's length — when `n` is absent, with no
per-layer accessor), installs `f` as the shared value accessor when given,
stores the group and its name, and leaves the hidden-stack set untouched,
so any previously hidden name is still hidden for the new layer set. -/
theorem stackMixin_group_replaces {TF : Type} (st : ChartState Row TF)
    (g : List Row) (n : Option String) (f : Option (Row → Nat → Int)) :
    (StackMixin.group st g n f).registry = [⟨g, n.getD "0", none⟩] ∧
    (StackMixin.group st g n f).titles = [] ∧
    (StackMixin.group st g n f).hiddenStacks = st.hiddenStacks ∧
    (StackMixin.group st g n f).valueAccessorF = f.getD st.valueAccessorF ∧
    (StackMixin.group st g n f).baseGroup = g ∧
    (StackMixin.group st g n f).groupName = n ∧
    ∀ m, isStackHidden (StackMixin.group st g n f).hiddenStacks m
      = isStackHidden st.hiddenStacks m := by
  cases n <;> cases f <;>
    refine ⟨?_, rfl, rfl, rfl, rfl, rfl, fun _ => rfl⟩ <;>
    simp [StackMixin.group, StackedDataAdaptor.stack] <;> rfl

/-- Witness: the naming theorem applied to the empty registry and to the
two-layer registry `regW`. -/
theorem adaptor_stack_naming_witness :
    ((StackedDataAdaptor.stack ([] : List (SLayer RowW)) [] JSArg.undef
        JSArg.undef 1).map SLayer.name
      = ([] : List (SLayer RowW)).map SLayer.name
          ++ [toString ([] : List (SLayer RowW)).length]) ∧
    ((StackedDataAdaptor.stack regW [] JSArg.undef JSArg.undef 1).map
        SLayer.name
      = regW.map SLayer.name ++ [toString regW.length]) :=
  ⟨(adaptor_stack_naming [] []).1 JSArg.undef 1,
    (adaptor_stack_naming regW []).1 JSArg.undef 1⟩

/-- A concrete chart state before a wholesale `group` replacement: two
registered layers, one title override, `"H"` hidden. -/
def stG : ChartState RowW Nat :=
  ⟨regW, [("A", 5)], [("H", true)], fun d _ => d.2, 7, some "A", []⟩

/-- Witness: the group-replacement theorem at `stG`, replacing with a new
group named `"G"` and no explicit accessor; `"H"` stays hidden. -/
theorem stackMixin_group_replaces_witness :
    (StackMixin.group stG [(1, 3)] (some "G") none).registry
      = [⟨[(1, 3)], (some "G").getD "0", none⟩] ∧
    (StackMixin.group stG [(1, 3)] (some "G") none).titles = [] ∧
    (StackMixin.group stG [(1, 3)] (some "G") none).hiddenStacks
      = stG.hiddenStacks ∧
    isStackHidden (StackMixin.group stG [(1, 3)] (some "G") none).hiddenStacks
        "H"
      = isStackHidden stG.hiddenStacks "H" :=
  ⟨(stackMixin_group_replaces stG [(1, 3)] (some "G") none).1,
    (stackMixin_group_replaces stG [(1, 3)] (some "G") none).2.1,
    (stackMixin_group_replaces stG [(1, 3)] (some "G") none).2.2.1,
    (stackMixin_group_replaces stG [(1, 3)] (some "G") none).2.2.2.2.2.2 "H"⟩

end Claims
